import Mathlib

/-!
Verification of the command-dispatch, intent-resolution and scheduling core
of a calendar MCP server.  The definitions below are shallow embeddings of
the TypeScript sources: the NLP module (`parseInput`, `extractEntities`,
`processIntent`), the MCP command router (`registerHandler`,
`processCommand`), the cron scheduler (`scheduleTask`) and the token
supervisor (`needsRefresh`, `handleTokenRefresh`).  Numeric confidences are
rationals; JavaScript string falsiness (empty string) is modelled
explicitly; the regular-expression engine used by entity extraction is a
backtracking matcher with JS semantics (leftmost match, ordered
alternation, greedy quantifiers).
-/

/-- Intent types of the NLP module (source enum `IntentType`). -/

inductive IntentType where
  | CREATE_EVENT
  | UPDATE_EVENT
  | DELETE_EVENT
  | QUERY_EVENTS
  | CREATE_DOCUMENT
  | UPDATE_DOCUMENT
  | SET_PREFERENCE
  | GET_PREFERENCE
  | UNKNOWN
deriving DecidableEq, Repr

/-- Entity types of the NLP module (source enum `EntityType`). -/

inductive EntityType where
  | DATE_TIME
  | DURATION
  | LOCATION
  | PERSON
  | TITLE
  | DESCRIPTION
deriving DecidableEq, Repr

/-- An extracted entity (source interface `Entity`).  `value` is the matched
string, `confidence` a rational in place of the JS float. -/

structure Entity where
  type : EntityType
  value : String
  confidence : ℚ
  startIndex : Option Nat
  endIndex : Option Nat
deriving DecidableEq, Repr

/-- A detected intent (source interface `Intent`). -/

structure Intent where
  type : IntentType
  confidence : ℚ
  entities : List Entity
deriving DecidableEq, Repr

/-- Context from previous interactions (source interface `NlpContext`).
`userData` is modelled as a string map. -/

structure NlpContext where
  previousIntents : List Intent
  recentEntities : List Entity
  userData : List (String × String)
  conversationId : Option String
deriving DecidableEq, Repr

/-- Error part of a command result. -/

structure ErrorInfo where
  code : String
  message : String
deriving DecidableEq, Repr

/-- Success payload produced by `processIntent` (`message`, echoed intent
type and entities). -/

structure SuccessData where
  message : String
  intent : IntentType
  entities : List Entity
deriving DecidableEq, Repr

/-- Result of command execution (source interface `CommandResult`). -/

structure CommandResult where
  success : Bool
  data : Option SuccessData
  error : Option ErrorInfo
deriving DecidableEq, Repr

def lowConfidenceMessage : String := "Could not understand the request with sufficient confidence"

def unknownIntentMessage : String := "Could not determine what you want to do"

def eventCreatedMessage : String := "Event created successfully"

def documentCreatedMessage : String := "Document created successfully"

def preferencesUpdatedMessage : String := "Preferences updated successfully"

/-- Embedding of `processIntent` from the NLP module: gate on confidence,
then switch on the intent type.  The `context` argument is accepted and,
as in the source, never read. -/

def processIntent (intent : Intent) (_context : Option NlpContext) : CommandResult :=
  if intent.confidence < 0.5 then
    { success := false, data := none,
      error := some { code := ("LOW_CONFIDENCE"), message := lowConfidenceMessage } }
  else
    match intent.type with
    | IntentType.CREATE_EVENT =>
      { success := true,
        data := some { message := eventCreatedMessage, intent := intent.type,
                       entities := intent.entities },
        error := none }
    | IntentType.CREATE_DOCUMENT =>
      { success := true,
        data := some { message := documentCreatedMessage, intent := intent.type,
                       entities := intent.entities },
        error := none }
    | IntentType.SET_PREFERENCE =>
      { success := true,
        data := some { message := preferencesUpdatedMessage, intent := intent.type,
                       entities := intent.entities },
        error := none }
    | _ =>
      { success := false, data := none,
        error := some { code := ("UNKNOWN_INTENT"), message := unknownIntentMessage } }

/-- OAuth token record (source interface `AuthToken`); `refreshToken` is a
string whose emptiness encodes JS falsiness ("no refresh token"). -/

structure AuthToken where
  accessToken : String
  refreshToken : String
  expiresAt : Int
  tokenType : String
  scope : List String
deriving DecidableEq, Repr

/-- Embedding of `needsRefresh`: true when `now` is past
`expiresAt - thresholdMinutes` minutes (source default threshold 5). -/

def needsRefresh (now : Int) (expiresAt : Int) (thresholdMinutes : Int) : Bool :=
  now > expiresAt - thresholdMinutes * 60 * 1000

/-- Embedding of `handleTokenRefresh`.  The external
`refreshAccessToken` collaborator is a parameter returning either a new
token or an error; the source's catch block rethrows, so errors pass
through unchanged and no retry happens. -/

def handleTokenRefresh (refresh : String → Except String AuthToken)
    (now : Int) (token : AuthToken) : Except String AuthToken :=
  if needsRefresh now token.expiresAt 5 && !token.refreshToken.isEmpty then
    refresh token.refreshToken
  else
    Except.ok token

def tokenFresh : AuthToken :=
  { accessToken := "a", refreshToken := "r", expiresAt := 1000000000,
    tokenType := "Bearer", scope := [] }

def tokenNoRefresh : AuthToken :=
  { accessToken := "a", refreshToken := "", expiresAt := 100,
    tokenType := "Bearer", scope := [] }

def tokenStale : AuthToken :=
  { accessToken := "a", refreshToken := "r", expiresAt := 100,
    tokenType := "Bearer", scope := [] }

/-- Character classes appearing in the extraction regexes: `\d`, `[\w\s]`
and `\s`. -/

inductive CharCls where
  | digit
  | wordSpace
  | space
deriving DecidableEq, Repr

/-- ASCII whitespace recognised by the JS `\s` class (the subset relevant
to the extraction patterns). -/

def isSpaceCh (c : Char) : Bool :=
  c == ' ' || c == '\t' || c == '\n' || c == '\r' || c == '\x0b' || c == '\x0c'

/-- Membership test for a character class (`\w` is `[A-Za-z0-9_]`). -/

def clsMatch : CharCls → Char → Bool
  | CharCls.digit, c => c.isDigit
  | CharCls.wordSpace, c => c.isAlphanum || c == '_' || isSpaceCh c
  | CharCls.space, c => isSpaceCh c

/-- Abstract syntax of the regular expressions used by `extractEntities`:
case-insensitive literals, the three character classes, sequencing, ordered
alternation, greedy option, greedy star over a character class (the only
form of star the source patterns use), one capture group, and `$`. -/

inductive RE where
  | eps
  | ch (c : Char)
  | cls (k : CharCls)
  | seq (a b : RE)
  | alt (a b : RE)
  | opt (a : RE)
  | starCls (k : CharCls)
  | grp (a : RE)
  | eos
deriving DecidableEq, Repr

/-- A single backtracking outcome: end position of the match together with
the span captured by group 1, when present. -/

abbrev MatchRes := Nat × Option (Nat × Nat)

/-- The leftmost capture wins when combining two branches of a sequence. -/

def mergeCaps : Option (Nat × Nat) → Option (Nat × Nat) → Option (Nat × Nat)
  | some g, _ => some g
  | none, g => g

/-- Length of the maximal run of class-`k` characters in `l`, counted from
the front: how far a greedy `[k]*` reaches. -/

def clsRun (k : CharCls) : List Char → Nat
  | [] => 0
  | c :: rest => if clsMatch k c then clsRun k rest + 1 else 0

/-- Backtracking matcher with JS semantics: results are produced in the
engine's preference order (greedy quantifiers try the longer match first,
then give characters back one at a time; alternation tries the left branch
first). -/

def runRE : RE → List Char → Nat → List MatchRes
  | RE.eps, _, p => [(p, none)]
  | RE.ch c, s, p =>
    match s[p]? with
    | some d => if d.toLower == c.toLower then [(p + 1, none)] else []
    | none => []
  | RE.cls k, s, p =>
    match s[p]? with
    | some d => if clsMatch k d then [(p + 1, none)] else []
    | none => []
  | RE.seq a b, s, p =>
    (runRE a s p).flatMap (fun r =>
      (runRE b s r.1).map (fun r2 => (r2.1, mergeCaps r.2 r2.2)))
  | RE.alt a b, s, p => runRE a s p ++ runRE b s p
  | RE.opt a, s, p => runRE a s p ++ [(p, none)]
  | RE.starCls k, s, p =>
    let m := clsRun k (s.drop p)
    (List.range (m + 1)).map (fun i => (p + (m - i), none))
  | RE.grp a, s, p =>
    (runRE a s p).map (fun r => (r.1, some (p, r.1)))
  | RE.eos, s, p => if p = s.length then [(p, none)] else []

/-- Preferred match of `r` starting exactly at position `p`. -/

def matchAt (r : RE) (s : List Char) (p : Nat) : Option MatchRes :=
  (runRE r s p).head?

/-- JS `String.match` without the global flag: the match at the smallest
starting position, with the engine's preferred extent there.  Returns
(start, (end, group-1 span)). -/

def firstMatch (r : RE) (s : List Char) : Option (Nat × MatchRes) :=
  (List.range (s.length + 1)).findSome? (fun p =>
    (matchAt r s p).map (fun m => (p, m)))

/-- Case-insensitive string literal. -/

def lit (w : String) : RE := w.data.foldr (fun c r => RE.seq (RE.ch c) r) RE.eps

/-- Greedy `+` as `a` followed by `a*`. -/

def rePlus (k : CharCls) : RE := RE.seq (RE.cls k) (RE.starCls k)

/-- `\d{1,2}` (greedy). -/

def digit12 : RE := RE.seq (RE.cls CharCls.digit) (RE.opt (RE.cls CharCls.digit))

/-- `:\d{2}`. -/

def colonDD : RE := RE.seq (RE.ch ':') (RE.seq (RE.cls CharCls.digit) (RE.cls CharCls.digit))

/-- `(am|pm)`. -/

def amPm : RE := RE.alt (lit ("am")) (lit ("pm"))

/-- `(\d{1,2})(:\d{2})?\s*(am|pm)` (the shared tail of the time patterns). -/

def timeTail : RE :=
  RE.seq digit12 (RE.seq (RE.opt colonDD) (RE.seq (RE.starCls CharCls.space) amPm))

def dtPattern1 : RE := RE.seq (lit ("today at ")) timeTail

def dtPattern2 : RE := RE.seq (lit ("tomorrow at ")) timeTail

/-- `(monday|tuesday|wednesday|thursday|friday|saturday|sunday)`. -/

def weekday : RE :=
  RE.alt (lit ("monday")) (RE.alt (lit ("tuesday")) (RE.alt (lit ("wednesday"))
    (RE.alt (lit ("thursday")) (RE.alt (lit ("friday"))
      (RE.alt (lit ("saturday")) (lit ("sunday")))))))

def dtPattern3 : RE :=
  RE.seq (RE.alt (lit ("next")) (lit ("this"))) (RE.seq (RE.ch ' ') weekday)

def dtPattern4 : RE := timeTail

/-- `(minute|minutes|hour|hours)`, alternatives in source order. -/

def unitWord : RE :=
  RE.alt (lit ("minute")) (RE.alt (lit ("minutes")) (RE.alt (lit ("hour")) (lit ("hours"))))

def duPattern1 : RE :=
  RE.seq (lit ("for ")) (RE.seq (rePlus CharCls.digit) (RE.seq (RE.ch ' ') unitWord))

def duPattern2 : RE :=
  RE.seq (rePlus CharCls.digit) (RE.seq (RE.ch ' ') (RE.seq unitWord (lit (" long"))))

/-- `(,|\.|\s|$)`. -/

def endPunct : RE :=
  RE.alt (RE.ch ',') (RE.alt (RE.ch '.') (RE.alt (RE.cls CharCls.space) RE.eos))

/-- `at ([\w\s]+)(,|\.|\s|$)`. -/

def locPattern : RE :=
  RE.seq (lit ("at ")) (RE.seq (RE.grp (rePlus CharCls.wordSpace)) endPunct)

/-- `with ([\w\s]+)(,|\.|\s|$)`. -/

def perPattern : RE :=
  RE.seq (lit ("with ")) (RE.seq (RE.grp (rePlus CharCls.wordSpace)) endPunct)

/-- JS `String.prototype.trim`: strip whitespace from both ends. -/

def trimChars (l : List Char) : List Char :=
  ((l.dropWhile isSpaceCh).reverse.dropWhile isSpaceCh).reverse

/-- String form of `trimChars`. -/

def trimStr (s : String) : String := (trimChars s.data).asString

/-- Normalization done by `parseInput`: `input.trim().toLowerCase()`. -/

def normalizeInput (s : String) : String :=
  ((trimChars s.data).map Char.toLower).asString

/-- Substring of `s` from position `a` (inclusive) to `b` (exclusive). -/

def substrOf (s : List Char) (a b : Nat) : String := ((s.drop a).take (b - a)).asString

/-- Entity built from a whole-pattern match (`value = match[0]`,
`startIndex = match.index`). -/

def mkPatternEntity (t : EntityType) (conf : ℚ) (s : List Char) (m : Nat × MatchRes) : Entity :=
  { type := t, value := substrOf s m.1 m.2.1, confidence := conf,
    startIndex := some m.1, endIndex := some m.2.1 }

/-- Entity built from group 1 of a match (`value = match[1].trim()`), as in
the location and person extractors. -/

def mkGroupEntity (t : EntityType) (conf : ℚ) (s : List Char) (m : Nat × MatchRes) : Entity :=
  { type := t,
    value := (match m.2.2 with
      | some g => trimStr (substrOf s g.1 g.2)
      | none => ""),
    confidence := conf,
    startIndex := some m.1, endIndex := some m.2.1 }

def dateTimePatterns : List RE := [dtPattern1, dtPattern2, dtPattern3, dtPattern4]

def durationPatterns : List RE := [duPattern1, duPattern2]

def locationPatterns : List RE := [locPattern]

def personPatterns : List RE := [perPattern]

/-- Entities pushed by the date/time loop of `extractEntities`. -/

def dtChunk (s : List Char) : List Entity :=
  dateTimePatterns.filterMap fun p =>
    (firstMatch p s).map (mkPatternEntity EntityType.DATE_TIME 0.8 s)

/-- Entities pushed by the duration loop of `extractEntities`. -/

def duChunk (s : List Char) : List Entity :=
  durationPatterns.filterMap fun p =>
    (firstMatch p s).map (mkPatternEntity EntityType.DURATION 0.85 s)

/-- Entities pushed by the location loop of `extractEntities`. -/

def locChunk (s : List Char) : List Entity :=
  locationPatterns.filterMap fun p =>
    (firstMatch p s).map (mkGroupEntity EntityType.LOCATION 0.7 s)

/-- Entities pushed by the person loop of `extractEntities`. -/

def perChunk (s : List Char) : List Entity :=
  personPatterns.filterMap fun p =>
    (firstMatch p s).map (mkGroupEntity EntityType.PERSON 0.75 s)

/-- Embedding of `extractEntities`: the four extractor loops run in order
(date/time, duration, location, person), each traversing its pattern list
in order and pushing, per pattern, at most the first match as one entity
with the pattern family's fixed confidence. -/

def extractEntities (input : String) : List Entity :=
  dtChunk input.data ++ duChunk input.data ++ locChunk input.data ++ perChunk input.data

/-- Is `needle` a prefix of `hay` (character-exact, as in JS `includes`)? -/

def charsPrefixOf : List Char → List Char → Bool
  | [], _ => true
  | _ :: _, [] => false
  | a :: as, b :: bs => a == b && charsPrefixOf as bs

/-- Does `hay` contain `needle` as a contiguous substring? -/

def charsContains (needle : List Char) : List Char → Bool
  | [] => needle.isEmpty
  | c :: rest => charsPrefixOf needle (c :: rest) || charsContains needle rest

/-- JS `String.prototype.includes`. -/

def strIncludes (s w : String) : Bool := charsContains w.data s.data

/-- The event/document creation trigger words of `parseInput`. -/

def hasCreateWord (n : String) : Bool :=
  strIncludes n ("schedule") || strIncludes n ("create") || strIncludes n ("add")
    || strIncludes n ("set up")

/-- The meeting/appointment/event words of `parseInput`. -/

def hasEventWord (n : String) : Bool :=
  strIncludes n ("meeting") || strIncludes n ("appointment") || strIncludes n ("event")

/-- The document/note/doc words of `parseInput`. -/

def hasDocWord (n : String) : Bool :=
  strIncludes n ("document") || strIncludes n ("note") || strIncludes n ("doc")

/-- The preference/setting/configure words of `parseInput`. -/

def hasPrefWord (n : String) : Bool :=
  strIncludes n ("preference") || strIncludes n ("setting") || strIncludes n ("configure")

/-- Embedding of `parseInput`.  The source normalizes (trim + lower-case),
then returns from nested `if` blocks; the early returns flatten to the
if-chain below: creation words plus an event word give CREATE_EVENT at
0.9, creation words plus a document word give CREATE_DOCUMENT at 0.85, a
preference word gives SET_PREFERENCE at 0.8, otherwise UNKNOWN at 0.3 with
no entities.  The `context` argument is accepted and, as in the source,
never read; no model-tier fallback exists in the code. -/

def parseInput (input : String) (_context : Option NlpContext) : Intent :=
  let n := normalizeInput input
  if hasCreateWord n && hasEventWord n then
    { type := IntentType.CREATE_EVENT, confidence := 0.9, entities := extractEntities n }
  else if hasCreateWord n && hasDocWord n then
    { type := IntentType.CREATE_DOCUMENT, confidence := 0.85, entities := extractEntities n }
  else if hasPrefWord n then
    { type := IntentType.SET_PREFERENCE, confidence := 0.8, entities := extractEntities n }
  else
    { type := IntentType.UNKNOWN, confidence := 0.3, entities := [] }

/-- True when some pattern-tier rule of `parseInput` fires on the
normalized input (so one of the three non-UNKNOWN returns is taken). -/

def patternTierMatches (n : String) : Bool :=
  (hasCreateWord n && (hasEventWord n || hasDocWord n)) || hasPrefWord n

def sampleCtx : NlpContext :=
  { previousIntents := [], recentEntities := [], userData := [], conversationId := none }

/-- Position of each extractor in the fixed loop order of
`extractEntities`. -/

def extractorRank : EntityType → Nat
  | EntityType.DATE_TIME => 0
  | EntityType.DURATION => 1
  | EntityType.LOCATION => 2
  | EntityType.PERSON => 3
  | EntityType.TITLE => 4
  | EntityType.DESCRIPTION => 5

/-- State of the MCP router: the handler registry (a JS object keyed by
command type) and the warn-level log. -/

structure RouterState (H : Type) where
  handlers : List (String × H)
  warnings : List String
deriving DecidableEq, Repr

def emptyRouter (H : Type) : RouterState H := { handlers := [], warnings := [] }

/-- JS object property lookup. -/

def getKey {α : Type} : List (String × α) → String → Option α
  | [], _ => none
  | (k, v) :: rest, key => if k = key then some v else getKey rest key

/-- JS object property assignment: replace an existing binding in place, or
append a new one. -/

def setKey {α : Type} : List (String × α) → String → α → List (String × α)
  | [], key, v => [(key, v)]
  | (k, w) :: rest, key, v =>
    if k = key then (key, v) :: rest else (k, w) :: setKey rest key v

/-- Number of bindings of `key` in the registry. -/

def countKey {α : Type} : List (String × α) → String → Nat
  | [], _ => 0
  | (k, _) :: rest, key => (if k = key then 1 else 0) + countKey rest key

def overwriteWarning (name : String) : String :=
  "Overwriting existing handler for command type: " ++ name

/-- Embedding of `registerHandler`: warn if a handler is already bound to
this command type, then (over)write the binding. -/

def registerHandler {H : Type} (st : RouterState H) (commandType : String)
    (handler : H) : RouterState H :=
  { handlers := setKey st.handlers commandType handler,
    warnings :=
      if (getKey st.handlers commandType).isSome then
        overwriteWarning commandType :: st.warnings
      else st.warnings }

/-- Fold a sequence of registrations over the initially empty registry. -/

def registerAll {H : Type} (regs : List (String × H)) : RouterState H :=
  regs.foldl (fun st r => registerHandler st r.1 r.2) (emptyRouter H)

/-- The request fields `processCommand` reads: `req.body.command`,
`req.body.parameters` and `req.id`. -/

structure McpRequest where
  command : Option String
  parameters : Option (List (String × String))
  id : Option String
deriving DecidableEq, Repr

/-- The `req.commandData` record installed before the handler runs. -/

structure CommandData where
  command : String
  parameters : List (String × String)
  timestamp : String
  requestId : String
deriving DecidableEq, Repr

/-- Outcome of `processCommand`: an API error passed to `next`, or the
chosen handler invoked with the installed command data. -/

inductive DispatchOutcome (H : Type) where
  | apiError (status : Nat) (message : String)
  | handled (handler : H) (commandData : CommandData)
deriving DecidableEq, Repr

/-- JS falsiness of an optional string field (absent or empty). -/

def strFalsy : Option String → Bool
  | none => true
  | some s => s.isEmpty

def missingCommandMessage : String := "Missing command field in request body"

def noHandlerMessage (c : String) : String :=
  "No handler registered for command: " ++ c

/-- Embedding of `processCommand`.  `nowIso` stands for
`new Date().toISOString()` and `nowMs` for `Date.now()` at the moment of
the call; the generated request id is `req.id` when truthy, otherwise
`req-` followed by the decimal timestamp. -/

def processCommand {H : Type} (st : RouterState H) (req : McpRequest)
    (nowIso : String) (nowMs : Nat) : DispatchOutcome H :=
  if strFalsy req.command then
    DispatchOutcome.apiError 400 missingCommandMessage
  else
    match getKey st.handlers (req.command.getD "") with
    | none => DispatchOutcome.apiError 404 (noHandlerMessage (req.command.getD ""))
    | some h =>
      DispatchOutcome.handled h
        { command := req.command.getD "",
          parameters := req.parameters.getD [],
          timestamp := nowIso,
          requestId :=
            if strFalsy req.id then "req-" ++ Nat.repr nowMs else req.id.getD "" }

def wRouter : RouterState Nat :=
  registerHandler (emptyRouter Nat) ("calendar.event.create") 7

/-- Decimal digits of `n`, most significant first (the list
`Nat.toDigitsCore` accumulates). -/

def decDigits (n : Nat) : List Char :=
  if _h : n < 10 then [Nat.digitChar n]
  else decDigits (n / 10) ++ [Nat.digitChar (n % 10)]
decreasing_by
  exact Nat.div_lt_self (by omega) (by omega)

/-- Value of a decimal digit character ('0'-'9'). -/

def digitVal (c : Char) : Nat := c.toNat - 48

/-- Decimal value of a digit string, most significant first. -/

def digitsVal (l : List Char) : Nat := l.foldl (fun a c => 10 * a + digitVal c) 0

def reqNoId : McpRequest :=
  { command := some ("calendar.event.create"), parameters := none, id := none }

def cmdDataAt (iso rid : String) : CommandData :=
  { command := ("calendar.event.create"), parameters := [], timestamp := iso,
    requestId := rid }

/-- A node-cron scheduled-task object: its identity, name, cron expression,
the task function it runs (identified by a number), and whether `stop()`
has been called on it. -/

structure Trigger where
  tid : Nat
  name : String
  expr : String
  task : Nat
  stopped : Bool
deriving DecidableEq, Repr

/-- Scheduler state: the `scheduledTasks` map (name → trigger id), every
trigger object created so far, and a fresh-id counter. -/

structure SchedulerState where
  table : List (String × Nat)
  triggers : List Trigger
  nextId : Nat
deriving DecidableEq, Repr

def emptyScheduler : SchedulerState := { table := [], triggers := [], nextId := 0 }

/-- `task.stop()`: mark the trigger object with id `i` stopped. -/

def stopTrigger (ts : List Trigger) (i : Nat) : List Trigger :=
  ts.map (fun t => if t.tid = i then { t with stopped := true } else t)

/-- JS `delete scheduledTasks[name]`. -/

def delKey {α : Type} : List (String × α) → String → List (String × α)
  | [], _ => []
  | (k, v) :: rest, key => if k = key then rest else (k, v) :: delKey rest key

/-- Embedding of `scheduleTask`.  `validate` stands for `cron.validate`
from the external node-cron library.  An invalid expression returns
`false` with no state change; otherwise an existing trigger with the same
name is stopped and deleted from the map before the new trigger is created
and installed (the `immediate` flag only runs the task once and does not
affect scheduler state, so it is omitted). -/

def scheduleTask (validate : String → Bool) (st : SchedulerState)
    (name expr : String) (task : Nat) : Bool × SchedulerState :=
  if !validate expr then (false, st)
  else
    let st1 :=
      match getKey st.table name with
      | some i =>
        { st with triggers := stopTrigger st.triggers i, table := delKey st.table name }
      | none => st
    (true,
      { table := setKey st1.table name st1.nextId,
        triggers := st1.triggers ++
          [{ tid := st1.nextId, name := name, expr := expr, task := task,
             stopped := false }],
        nextId := st1.nextId + 1 })

/-- The scheduler's well-formedness invariant: trigger ids are below the
fresh-id counter, the map binds each name at most once, and every
non-stopped trigger is the one its name is mapped to. -/

def SchedWF (st : SchedulerState) : Prop :=
  (∀ t ∈ st.triggers, t.tid < st.nextId) ∧
  (∀ key, countKey st.table key ≤ 1) ∧
  (∀ t ∈ st.triggers, t.stopped = false → getKey st.table t.name = some t.tid)

def cronOK : String → Bool := fun _ => true

def schedA : SchedulerState :=
  (scheduleTask cronOK emptyScheduler ("x") ("0 * * * *") 1).2

def schedB : SchedulerState :=
  (scheduleTask cronOK schedA ("x") ("1 * * * *") 2).2

def trigStopped : Trigger :=
  { tid := 0, name := ("x"), expr := ("0 * * * *"), task := 1, stopped := true }

/-- Claim C1: for every Intent with confidence < 0.5, `processIntent` returns
a failure result with `success = false` and error code `LOW_CONFIDENCE`,
regardless of the intent type, and carries no domain-action data. -/
theorem C1_low_confidence_gate (intent : Intent) (ctx : Option NlpContext)
    (h : intent.confidence < 0.5) :
    (processIntent intent ctx).success = false ∧
    (processIntent intent ctx).data = none ∧
    (processIntent intent ctx).error =
      some { code := ("LOW_CONFIDENCE"), message := lowConfidenceMessage } := by
  simp [processIntent, h]

theorem C1_low_confidence_gate_witness :
    ((0.3 : ℚ) < 0.5) ∧
    ((processIntent { type := IntentType.CREATE_EVENT, confidence := 0.3, entities := [] }
        none).success = false ∧
     (processIntent { type := IntentType.CREATE_EVENT, confidence := 0.3, entities := [] }
        none).data = none ∧
     (processIntent { type := IntentType.CREATE_EVENT, confidence := 0.3, entities := [] }
        none).error =
       some { code := ("LOW_CONFIDENCE"), message := lowConfidenceMessage }) :=
  ⟨by norm_num,
   C1_low_confidence_gate { type := IntentType.CREATE_EVENT, confidence := 0.3, entities := [] }
     none (by norm_num)⟩

/-- Claim C5: for every Intent of type UNKNOWN whose confidence is at least
0.5, `processIntent` returns a failure with error code `UNKNOWN_INTENT`;
the type check is independent of the confidence value. -/
theorem C5_unknown_intent_gate (intent : Intent) (ctx : Option NlpContext)
    (hty : intent.type = IntentType.UNKNOWN) (hc : (0.5 : ℚ) ≤ intent.confidence) :
    (processIntent intent ctx).success = false ∧
    (processIntent intent ctx).error =
      some { code := ("UNKNOWN_INTENT"), message := unknownIntentMessage } := by
  have hnl : ¬ intent.confidence < 0.5 := not_lt.mpr hc
  simp [processIntent, hnl, hty]

theorem C5_unknown_intent_gate_witness :
    ((({ type := IntentType.UNKNOWN, confidence := 0.9, entities := [] } : Intent).type
        = IntentType.UNKNOWN) ∧ ((0.5 : ℚ) ≤ 0.9)) ∧
    ((processIntent { type := IntentType.UNKNOWN, confidence := 0.9, entities := [] }
        none).success = false ∧
     (processIntent { type := IntentType.UNKNOWN, confidence := 0.9, entities := [] }
        none).error =
       some { code := ("UNKNOWN_INTENT"), message := unknownIntentMessage }) :=
  ⟨⟨rfl, by norm_num⟩,
   C5_unknown_intent_gate { type := IntentType.UNKNOWN, confidence := 0.9, entities := [] }
     none rfl (by norm_num)⟩

/-- Claim C7: `handleTokenRefresh` returns the token unchanged when it is
not within the 5-minute refresh threshold of expiry; returns it unchanged
when the refresh token is absent (empty) even within the threshold; and
when a refresh is attempted and fails, the error propagates unchanged to
the caller with no internal retry (the single `refresh` outcome is the
result). -/
theorem C7_token_refresh (refresh : String → Except String AuthToken)
    (now : Int) (token : AuthToken) :
    (needsRefresh now token.expiresAt 5 = false →
      handleTokenRefresh refresh now token = Except.ok token) ∧
    (token.refreshToken = "" →
      handleTokenRefresh refresh now token = Except.ok token) ∧
    (∀ e, needsRefresh now token.expiresAt 5 = true →
      token.refreshToken.isEmpty = false →
      refresh token.refreshToken = Except.error e →
      handleTokenRefresh refresh now token = Except.error e) := by
  refine ⟨?_, ?_, ?_⟩
  · intro h
    simp [handleTokenRefresh, h]
  · intro h
    simp [handleTokenRefresh, h, String.isEmpty]
  · intro e h1 h2 h3
    simp [handleTokenRefresh, h1, h2, h3]

theorem C7_token_refresh_witness :
    (needsRefresh 0 tokenFresh.expiresAt 5 = false ∧
      handleTokenRefresh (fun _ => Except.error ("boom")) 0 tokenFresh
        = Except.ok tokenFresh) ∧
    (tokenNoRefresh.refreshToken = "" ∧
      handleTokenRefresh (fun _ => Except.error ("boom")) 100 tokenNoRefresh
        = Except.ok tokenNoRefresh) ∧
    (needsRefresh 100 tokenStale.expiresAt 5 = true ∧
      handleTokenRefresh (fun _ => Except.error ("boom")) 100 tokenStale
        = Except.error ("boom")) := by
  refine ⟨⟨by decide, ?_⟩, ⟨rfl, ?_⟩, ⟨by decide, ?_⟩⟩
  · exact (C7_token_refresh (fun _ => Except.error ("boom")) 0 tokenFresh).1 (by decide)
  · exact (C7_token_refresh (fun _ => Except.error ("boom")) 100 tokenNoRefresh).2.1 rfl
  · exact (C7_token_refresh (fun _ => Except.error ("boom")) 100 tokenStale).2.2
      ("boom") (by decide) (by decide) rfl

/-- Every entity of a whole-pattern extraction chunk has the chunk's type
and fixed confidence. -/
theorem mem_patternChunk {t : EntityType} {conf : ℚ} {pats : List RE} {s : List Char}
    {e : Entity}
    (he : e ∈ pats.filterMap (fun p => (firstMatch p s).map (mkPatternEntity t conf s))) :
    e.type = t ∧ e.confidence = conf := by
  simp only [List.mem_filterMap] at he
  obtain ⟨p, _, hm⟩ := he
  obtain ⟨m, _, rfl⟩ := Option.map_eq_some'.mp hm
  exact ⟨rfl, rfl⟩

/-- Every entity of a group-capture extraction chunk has the chunk's type
and fixed confidence. -/
theorem mem_groupChunk {t : EntityType} {conf : ℚ} {pats : List RE} {s : List Char}
    {e : Entity}
    (he : e ∈ pats.filterMap (fun p => (firstMatch p s).map (mkGroupEntity t conf s))) :
    e.type = t ∧ e.confidence = conf := by
  simp only [List.mem_filterMap] at he
  obtain ⟨p, _, hm⟩ := he
  obtain ⟨m, _, rfl⟩ := Option.map_eq_some'.mp hm
  exact ⟨rfl, rfl⟩

/-- Claim C2 (counterexample): on the input "hello world" no pattern-tier
rule matches, yet `parseInput` does not return a model-tier intent with
confidence 0.7; it returns UNKNOWN with confidence 0.3 directly — no
model-tier fallback exists in the code. -/
theorem C2_counterexample :
    patternTierMatches (normalizeInput ("hello world")) = false ∧
    parseInput ("hello world") none
      = { type := IntentType.UNKNOWN, confidence := 0.3, entities := [] } ∧
    (parseInput ("hello world") none).confidence ≠ 0.7 := by
  refine ⟨rfl, rfl, ?_⟩
  have h : parseInput ("hello world") none
      = { type := IntentType.UNKNOWN, confidence := 0.3, entities := [] } := rfl
  rw [h]
  norm_num

/-- Claim C2 (amended): for every input on which no pattern-tier rule
matches, `parseInput` returns UNKNOWN with confidence exactly 0.3 (hence at
most 0.3) and no entities, without any model-tier fallback. -/
theorem C2_no_model_tier (input : String) (ctx : Option NlpContext)
    (h : patternTierMatches (normalizeInput input) = false) :
    parseInput input ctx
      = { type := IntentType.UNKNOWN, confidence := 0.3, entities := [] } ∧
    (parseInput input ctx).confidence ≤ 0.3 := by
  simp only [patternTierMatches, Bool.or_eq_false_iff, Bool.and_eq_false_iff] at h
  obtain ⟨hcd, hp⟩ := h
  have heq : parseInput input ctx
      = { type := IntentType.UNKNOWN, confidence := 0.3, entities := [] } := by
    unfold parseInput
    rcases hcd with hc | hed
    · simp [hc, hp]
    · obtain ⟨he, hd⟩ := hed
      simp [he, hd, hp]
  refine ⟨heq, ?_⟩
  rw [heq]

theorem C2_no_model_tier_witness :
    patternTierMatches (normalizeInput ("hello world")) = false ∧
    (parseInput ("hello world") (some sampleCtx)
      = { type := IntentType.UNKNOWN, confidence := 0.3, entities := [] } ∧
     (parseInput ("hello world") (some sampleCtx)).confidence ≤ 0.3) :=
  ⟨rfl, C2_no_model_tier ("hello world") (some sampleCtx) rfl⟩

/-- Claim C9: `parseInput` and `processIntent` never read their `NlpContext`
argument — for any two context values the results coincide, so each is a
function of the text (resp. intent) alone.  `extractEntities` takes no
context argument at all in the source, so its independence is structural. -/
theorem C9_context_ignored (input : String) (intent : Intent)
    (c1 c2 : Option NlpContext) :
    parseInput input c1 = parseInput input c2 ∧
    processIntent intent c1 = processIntent intent c2 :=
  ⟨rfl, rfl⟩

theorem mem_dtChunk {s : List Char} {e : Entity} (he : e ∈ dtChunk s) :
    e.type = EntityType.DATE_TIME ∧ e.confidence = 0.8 := by
  simp only [dtChunk] at he
  exact mem_patternChunk he

theorem mem_duChunk {s : List Char} {e : Entity} (he : e ∈ duChunk s) :
    e.type = EntityType.DURATION ∧ e.confidence = 0.85 := by
  simp only [duChunk] at he
  exact mem_patternChunk he

theorem mem_locChunk {s : List Char} {e : Entity} (he : e ∈ locChunk s) :
    e.type = EntityType.LOCATION ∧ e.confidence = 0.7 := by
  simp only [locChunk] at he
  exact mem_groupChunk he

theorem mem_perChunk {s : List Char} {e : Entity} (he : e ∈ perChunk s) :
    e.type = EntityType.PERSON ∧ e.confidence = 0.75 := by
  simp only [perChunk] at he
  exact mem_groupChunk he

/-- A list whose entities all share one type is trivially ordered by
extractor rank. -/
theorem pairwise_rank_of_const {l : List Entity} {t : EntityType}
    (h : ∀ e ∈ l, e.type = t) :
    l.Pairwise (fun a b => extractorRank a.type ≤ extractorRank b.type) := by
  induction l with
  | nil => exact List.Pairwise.nil
  | cons a l ih =>
    refine List.Pairwise.cons (fun b hb => ?_)
      (ih (fun e he => h e (List.mem_cons_of_mem a he)))
    rw [h a (List.mem_cons_self a l), h b (List.mem_cons_of_mem a hb)]

/-- Claim C6 (counterexample): on "3pm today at 5pm" the two DATE_TIME
entities are returned with start positions 4 then 0 — the later occurrence
first — so same-type entities are not ordered by position in the source
text. -/
theorem C6_counterexample :
    ((extractEntities "3pm today at 5pm").map (fun e => (e.type, e.startIndex))).take 2
      = [(EntityType.DATE_TIME, some 4), (EntityType.DATE_TIME, some 0)] ∧ (0 : Nat) < 4 := by
  constructor
  · rfl
  · decide

/-- Claim C6 (amended): the entity list of `extractEntities` is grouped by
the fixed extractor order (all DATE_TIME entities, then DURATION, then
LOCATION, then PERSON); within a type, entities appear in the fixed order
of the patterns (each contributing at most its first match), not
necessarily in order of occurrence in the text. -/
theorem C6_extractor_order (input : String) :
    (extractEntities input).Pairwise
      (fun a b => extractorRank a.type ≤ extractorRank b.type) := by
  unfold extractEntities
  rw [List.append_assoc, List.append_assoc]
  refine List.pairwise_append.mpr ⟨pairwise_rank_of_const (fun e he => (mem_dtChunk he).1),
    List.pairwise_append.mpr ⟨pairwise_rank_of_const (fun e he => (mem_duChunk he).1),
      List.pairwise_append.mpr ⟨pairwise_rank_of_const (fun e he => (mem_locChunk he).1),
        pairwise_rank_of_const (fun e he => (mem_perChunk he).1), ?_⟩, ?_⟩, ?_⟩
  · intro a ha b hb
    rw [(mem_locChunk ha).1, (mem_perChunk hb).1]
    decide
  · intro a ha b hb
    rw [(mem_duChunk ha).1]
    rcases List.mem_append.mp hb with hb | hb
    · rw [(mem_locChunk hb).1]
      decide
    · rw [(mem_perChunk hb).1]
      decide
  · intro a ha b hb
    rw [(mem_dtChunk ha).1]
    exact Nat.zero_le _

theorem dtChunk_length (s : List Char) : (dtChunk s).length ≤ 4 := by
  have h := List.length_filterMap_le
    (fun p => (firstMatch p s).map (mkPatternEntity EntityType.DATE_TIME 0.8 s)) dateTimePatterns
  simpa [dtChunk, dateTimePatterns] using h

theorem duChunk_length (s : List Char) : (duChunk s).length ≤ 2 := by
  have h := List.length_filterMap_le
    (fun p => (firstMatch p s).map (mkPatternEntity EntityType.DURATION 0.85 s)) durationPatterns
  simpa [duChunk, durationPatterns] using h

theorem locChunk_length (s : List Char) : (locChunk s).length ≤ 1 := by
  have h := List.length_filterMap_le
    (fun p => (firstMatch p s).map (mkGroupEntity EntityType.LOCATION 0.7 s)) locationPatterns
  simpa [locChunk, locationPatterns] using h

theorem perChunk_length (s : List Char) : (perChunk s).length ≤ 1 := by
  have h := List.length_filterMap_le
    (fun p => (firstMatch p s).map (mkGroupEntity EntityType.PERSON 0.75 s)) personPatterns
  simpa [perChunk, personPatterns] using h

/-- A chunk whose entities all have type `t` contributes nothing to a
filter for a different type. -/
theorem filter_type_nil {l : List Entity} {t u : EntityType} (hne : t ≠ u)
    (h : ∀ e ∈ l, e.type = t) :
    l.filter (fun e => e.type == u) = [] := by
  rw [List.filter_eq_nil_iff]
  intro e he
  simp [h e he, hne]

/-- The confidence flag check used in the C10 statement holds for each of
the four fixed confidences. -/
theorem conf_flags {c : ℚ}
    (hmem : (c == (0.8 : ℚ) || c == 0.85 || c == 0.7 || c == 0.75) = true)
    (h0 : (0 : ℚ) ≤ c) (h1 : c ≤ 1) :
    ((c == (0.8 : ℚ) || c == 0.85 || c == 0.7 || c == 0.75)
      && (decide ((0 : ℚ) ≤ c) && decide (c ≤ (1 : ℚ)))) = true := by
  simp [hmem, decide_eq_true h0, decide_eq_true h1]

/-- Claim C10: `extractEntities` keeps only the first match of each of its
8 fixed patterns, so there are at most 4 DATE_TIME, 2 DURATION, 1 LOCATION
and 1 PERSON entities — at most 8 in total — and every entity carries one
of the fixed per-pattern confidences 0.8, 0.85, 0.7, 0.75, all within
[0, 1], regardless of how often a pattern occurs in the text. -/
theorem C10_first_match_only (input : String) :
    (extractEntities input).length ≤ 8 ∧
    ((extractEntities input).filter (fun e => e.type == EntityType.DATE_TIME)).length ≤ 4 ∧
    ((extractEntities input).filter (fun e => e.type == EntityType.DURATION)).length ≤ 2 ∧
    ((extractEntities input).filter (fun e => e.type == EntityType.LOCATION)).length ≤ 1 ∧
    ((extractEntities input).filter (fun e => e.type == EntityType.PERSON)).length ≤ 1 ∧
    (extractEntities input).all (fun e =>
      (e.confidence == (0.8 : ℚ) || e.confidence == 0.85 || e.confidence == 0.7
        || e.confidence == 0.75)
      && (decide ((0 : ℚ) ≤ e.confidence) && decide (e.confidence ≤ (1 : ℚ)))) = true := by
  have hdt := dtChunk_length input.data
  have hdu := duChunk_length input.data
  have hloc := locChunk_length input.data
  have hper := perChunk_length input.data
  refine ⟨?_, ?_, ?_, ?_, ?_, ?_⟩
  · unfold extractEntities
    simp only [List.length_append]
    omega
  · unfold extractEntities
    simp only [List.filter_append, List.length_append]
    rw [filter_type_nil (by decide) (fun e he => (mem_duChunk he).1),
      filter_type_nil (by decide) (fun e he => (mem_locChunk he).1),
      filter_type_nil (by decide) (fun e he => (mem_perChunk he).1)]
    have := List.length_filter_le (fun e => e.type == EntityType.DATE_TIME) (dtChunk input.data)
    simp only [List.length_nil]
    omega
  · unfold extractEntities
    simp only [List.filter_append, List.length_append]
    rw [filter_type_nil (by decide) (fun e he => (mem_dtChunk he).1),
      filter_type_nil (by decide) (fun e he => (mem_locChunk he).1),
      filter_type_nil (by decide) (fun e he => (mem_perChunk he).1)]
    have := List.length_filter_le (fun e => e.type == EntityType.DURATION) (duChunk input.data)
    simp only [List.length_nil]
    omega
  · unfold extractEntities
    simp only [List.filter_append, List.length_append]
    rw [filter_type_nil (by decide) (fun e he => (mem_dtChunk he).1),
      filter_type_nil (by decide) (fun e he => (mem_duChunk he).1),
      filter_type_nil (by decide) (fun e he => (mem_perChunk he).1)]
    have := List.length_filter_le (fun e => e.type == EntityType.LOCATION) (locChunk input.data)
    simp only [List.length_nil]
    omega
  · unfold extractEntities
    simp only [List.filter_append, List.length_append]
    rw [filter_type_nil (by decide) (fun e he => (mem_dtChunk he).1),
      filter_type_nil (by decide) (fun e he => (mem_duChunk he).1),
      filter_type_nil (by decide) (fun e he => (mem_locChunk he).1)]
    have := List.length_filter_le (fun e => e.type == EntityType.PERSON) (perChunk input.data)
    simp only [List.length_nil]
    omega
  · rw [List.all_eq_true]
    intro e he
    unfold extractEntities at he
    rcases List.mem_append.mp he with he | he
    rotate_left
    · rw [(mem_perChunk he).2]
      exact conf_flags (by norm_num) (by norm_num) (by norm_num)
    rcases List.mem_append.mp he with he | he
    rotate_left
    · rw [(mem_locChunk he).2]
      exact conf_flags (by norm_num) (by norm_num) (by norm_num)
    rcases List.mem_append.mp he with he | he
    · rw [(mem_dtChunk he).2]
      exact conf_flags (by norm_num) (by norm_num) (by norm_num)
    · rw [(mem_duChunk he).2]
      exact conf_flags (by norm_num) (by norm_num) (by norm_num)

theorem getKey_setKey_self {α : Type} (l : List (String × α)) (key : String) (v : α) :
    getKey (setKey l key v) key = some v := by
  induction l with
  | nil => simp [setKey, getKey]
  | cons p rest ih =>
    obtain ⟨k, w⟩ := p
    by_cases hk : k = key
    · simp [setKey, hk, getKey]
    · simp [setKey, hk, getKey, ih]

theorem countKey_setKey_ne {α : Type} (l : List (String × α)) {k key : String} (v : α)
    (hne : k ≠ key) : countKey (setKey l k v) key = countKey l key := by
  induction l with
  | nil => simp [setKey, countKey, hne]
  | cons p rest ih =>
    obtain ⟨k0, w⟩ := p
    by_cases hk : k0 = k
    · subst hk
      simp [setKey, countKey, hne]
    · simp [setKey, hk, countKey, ih]

theorem countKey_setKey_same {α : Type} (l : List (String × α)) (key : String) (v : α) :
    countKey (setKey l key v) key = max 1 (countKey l key) := by
  induction l with
  | nil => simp [setKey, countKey]
  | cons p rest ih =>
    obtain ⟨k0, w⟩ := p
    by_cases hk : k0 = key
    · subst hk
      simp [setKey, countKey]
    · simp only [setKey, if_neg hk, countKey, if_neg hk, ih]
      omega

theorem countKey_setKey_le {α : Type} (l : List (String × α)) (k key : String) (v : α)
    (h : countKey l key ≤ 1) : countKey (setKey l k v) key ≤ 1 := by
  by_cases hk : k = key
  · subst hk
    rw [countKey_setKey_same]
    omega
  · rw [countKey_setKey_ne l v hk]
    exact h

theorem countKey_registerAll_aux {H : Type} (regs : List (String × H)) (st : RouterState H)
    (h : ∀ key, countKey st.handlers key ≤ 1) :
    ∀ key,
      countKey ((regs.foldl (fun st r => registerHandler st r.1 r.2) st).handlers) key ≤ 1 := by
  induction regs generalizing st with
  | nil => exact h
  | cons r rest ih =>
    exact ih _ (fun key => countKey_setKey_le _ _ _ _ (h key))

/-- Claim C3: after any sequence of registrations at most one handler is
bound per command name; `processCommand` invokes the handler registered
most recently for the (non-empty) command name, regardless of what was
bound before; and an overwriting registration logs a warning. -/
theorem C3_single_handler_last_wins (H : Type) (regs : List (String × H))
    (st : RouterState H) (name : String) (handler : H)
    (nowIso : String) (nowMs : Nat) (req : McpRequest)
    (hcmd : req.command = some name) (hne : name.isEmpty = false) :
    (∀ key, countKey (registerAll regs).handlers key ≤ 1) ∧
    processCommand (registerHandler st name handler) req nowIso nowMs
      = DispatchOutcome.handled handler
          { command := name, parameters := req.parameters.getD [],
            timestamp := nowIso,
            requestId :=
              if strFalsy req.id then "req-" ++ Nat.repr nowMs else req.id.getD "" } ∧
    ((getKey st.handlers name).isSome = true →
      (registerHandler st name handler).warnings
        = overwriteWarning name :: st.warnings) := by
  refine ⟨countKey_registerAll_aux regs (emptyRouter H)
    (fun key => by simp [emptyRouter, countKey]), ?_, ?_⟩
  · have hf : strFalsy req.command = false := by
      rw [hcmd]
      simpa [strFalsy] using hne
    have hg : getKey (registerHandler st name handler).handlers name = some handler :=
      getKey_setKey_self st.handlers name handler
    simp [processCommand, hf, hcmd, hg, strFalsy, hne]
  · intro hw
    simp [registerHandler, hw]

theorem C3_single_handler_witness :
    countKey (registerAll [(("a" : String), 0), (("a" : String), 1)]).handlers ("a") ≤ 1 ∧
    processCommand (registerHandler wRouter ("calendar.event.create") 8)
        { command := some ("calendar.event.create"), parameters := none, id := none }
        ("2026-01-01T00:00:00.000Z") 5
      = DispatchOutcome.handled 8
          { command := ("calendar.event.create"), parameters := [],
            timestamp := ("2026-01-01T00:00:00.000Z"), requestId := ("req-5") } ∧
    (registerHandler wRouter ("calendar.event.create") 8).warnings
      = overwriteWarning ("calendar.event.create") :: wRouter.warnings := by
  have h := C3_single_handler_last_wins Nat [(("a" : String), 0), (("a" : String), 1)]
    wRouter ("calendar.event.create") 8 ("2026-01-01T00:00:00.000Z") 5
    { command := some ("calendar.event.create"), parameters := none, id := none }
    rfl rfl
  refine ⟨h.1 ("a"), ?_, h.2.2 (by decide)⟩
  rw [h.2.1]
  rfl

theorem toDigitsCore_eq_decDigits (f : Nat) :
    ∀ n acc, n < f → Nat.toDigitsCore 10 f n acc = decDigits n ++ acc := by
  induction f with
  | zero => intro n acc h; omega
  | succ f ih =>
    intro n acc h
    by_cases h10 : n < 10
    · have hdiv : n / 10 = 0 := Nat.div_eq_of_lt h10
      have hmod : n % 10 = n := Nat.mod_eq_of_lt h10
      simp [Nat.toDigitsCore, hdiv, hmod, decDigits, h10]
    · have hdiv : n / 10 ≠ 0 := by
        intro h0
        exact h10 (by omega)
      have hlt : n / 10 < f := by
        have := Nat.div_lt_self (by omega : 0 < n) (by omega : 1 < 10)
        omega
      rw [show Nat.toDigitsCore 10 (f + 1) n acc
          = Nat.toDigitsCore 10 f (n / 10) (Nat.digitChar (n % 10) :: acc) by
        simp [Nat.toDigitsCore, hdiv]]
      rw [ih (n / 10) (Nat.digitChar (n % 10) :: acc) hlt]
      rw [show decDigits n = decDigits (n / 10) ++ [Nat.digitChar (n % 10)] by
        rw [decDigits]
        simp [h10]]
      simp

theorem repr_eq_decDigits (n : Nat) : Nat.repr n = (decDigits n).asString := by
  have h := toDigitsCore_eq_decDigits (n + 1) n [] (by omega)
  simp [Nat.repr, Nat.toDigits, h]

theorem digitVal_digitChar : ∀ d < 10, digitVal (Nat.digitChar d) = d := by decide

theorem digitsVal_go (l : List Char) (a : Nat) :
    l.foldl (fun a c => 10 * a + digitVal c) a
      = a * 10 ^ l.length + digitsVal l := by
  induction l generalizing a with
  | nil => simp [digitsVal]
  | cons c rest ih =>
    simp only [List.foldl_cons, digitsVal, List.length_cons]
    rw [ih (10 * a + digitVal c), ih (10 * 0 + digitVal c)]
    ring

theorem digitsVal_decDigits (n : Nat) : digitsVal (decDigits n) = n := by
  induction n using Nat.strong_induction_on with
  | _ n ih =>
    by_cases h10 : n < 10
    · rw [decDigits]
      simp only [h10, dif_pos]
      simp [digitsVal, digitVal_digitChar n h10]
    · rw [decDigits]
      simp only [h10, dif_neg, not_false_iff]
      have hlt : n / 10 < n := Nat.div_lt_self (by omega) (by omega)
      simp only [digitsVal, List.foldl_append, List.foldl_cons, List.foldl_nil]
      have hrec : (decDigits (n / 10)).foldl (fun a c => 10 * a + digitVal c) 0 = n / 10 :=
        ih (n / 10) hlt
      rw [hrec, digitVal_digitChar (n % 10) (Nat.mod_lt n (by omega))]
      omega

theorem decDigits_injective {m n : Nat} (h : decDigits m = decDigits n) : m = n := by
  rw [← digitsVal_decDigits m, ← digitsVal_decDigits n, h]

theorem natRepr_injective {m n : Nat} (h : Nat.repr m = Nat.repr n) : m = n := by
  apply decDigits_injective
  have h2 : (decDigits m).asString = (decDigits n).asString := by
    rw [← repr_eq_decDigits m, ← repr_eq_decDigits n]
    exact h
  have h3 := congrArg String.data h2
  simpa [List.asString] using h3

/-- When `processCommand` reaches a handler and the request carries no
transport id, the installed request id is `req-` plus the decimal
timestamp. -/
theorem requestId_of_handled {H : Type} {st : RouterState H} {req : McpRequest}
    {nowIso : String} {nowMs : Nat} {h : H} {d : CommandData}
    (hid : req.id = none)
    (hp : processCommand st req nowIso nowMs = DispatchOutcome.handled h d) :
    d.requestId = "req-" ++ Nat.repr nowMs := by
  unfold processCommand at hp
  by_cases hc : strFalsy req.command = true
  · rw [if_pos hc] at hp
    exact absurd hp (by simp)
  · rw [if_neg hc] at hp
    cases hg : getKey st.handlers (req.command.getD "") with
    | none =>
      rw [hg] at hp
      exact absurd hp (by simp)
    | some h0 =>
      rw [hg] at hp
      cases hp
      simp [hid, strFalsy]

/-- Claim C8 (counterexample): two distinct commands, both without a
transport-supplied id, processed in the same millisecond receive the same
generated request id — request ids are not unique per invocation. -/
theorem C8_counterexample :
    processCommand wRouter
        { command := some ("calendar.event.create"), parameters := none, id := none }
        ("t1") 1700000000000
      = DispatchOutcome.handled 7
          { command := ("calendar.event.create"), parameters := [],
            timestamp := ("t1"), requestId := ("req-1700000000000") } ∧
    processCommand wRouter
        { command := some ("calendar.event.create"),
          parameters := some [(("title" : String), ("standup"))], id := none }
        ("t2") 1700000000000
      = DispatchOutcome.handled 7
          { command := ("calendar.event.create"),
            parameters := [(("title" : String), ("standup"))],
            timestamp := ("t2"), requestId := ("req-1700000000000") } ∧
    ({ command := some ("calendar.event.create"), parameters := none,
       id := none } : McpRequest)
      ≠ { command := some ("calendar.event.create"),
          parameters := some [(("title" : String), ("standup"))], id := none } := by
  refine ⟨rfl, rfl, ?_⟩
  decide

/-- Claim C8 (amended): the request id equals the transport-supplied
`req.id` when that is truthy, and otherwise is `req-` plus the current
millisecond timestamp; hence two commands without transport-supplied ids
receive distinct request ids whenever they are processed at distinct
timestamps (they collide only within the same millisecond). -/
theorem C8_request_id_distinct_times (H : Type) (st1 st2 : RouterState H)
    (req1 req2 : McpRequest) (iso1 iso2 : String) (t1 t2 : Nat)
    (h1 h2 : H) (d1 d2 : CommandData)
    (hid1 : req1.id = none) (hid2 : req2.id = none) (hne : t1 ≠ t2)
    (hp1 : processCommand st1 req1 iso1 t1 = DispatchOutcome.handled h1 d1)
    (hp2 : processCommand st2 req2 iso2 t2 = DispatchOutcome.handled h2 d2) :
    d1.requestId ≠ d2.requestId := by
  rw [requestId_of_handled hid1 hp1, requestId_of_handled hid2 hp2]
  intro hEq
  apply hne
  apply natRepr_injective
  have hd := congrArg String.data hEq
  simp only [String.data_append] at hd
  have := List.append_cancel_left hd
  cases hr1 : Nat.repr t1
  all_goals cases hr2 : Nat.repr t2
  all_goals rw [hr1, hr2] at this; simp_all

theorem C8_request_id_distinct_times_witness :
    (cmdDataAt ("t1") ("req-1")).requestId ≠ (cmdDataAt ("t2") ("req-2")).requestId :=
  C8_request_id_distinct_times Nat wRouter wRouter reqNoId reqNoId
    ("t1") ("t2") 1 2 7 7 (cmdDataAt ("t1") ("req-1")) (cmdDataAt ("t2") ("req-2"))
    rfl rfl (by decide) rfl rfl

theorem getKey_setKey_ne {α : Type} (l : List (String × α)) {k key : String} (v : α)
    (hne : k ≠ key) : getKey (setKey l k v) key = getKey l key := by
  induction l with
  | nil => simp [setKey, getKey, hne]
  | cons p rest ih =>
    obtain ⟨k0, w⟩ := p
    by_cases hk : k0 = k
    · subst hk
      simp [setKey, getKey, hne]
    · simp [setKey, hk, getKey, ih]

theorem getKey_delKey_ne {α : Type} (l : List (String × α)) {k key : String}
    (hne : k ≠ key) : getKey (delKey l k) key = getKey l key := by
  induction l with
  | nil => simp [delKey, getKey]
  | cons p rest ih =>
    obtain ⟨k0, w⟩ := p
    by_cases hk : k0 = k
    · subst hk
      simp [delKey, getKey, hne, Ne.symm hne]
    · simp [delKey, hk, getKey, ih]

theorem countKey_delKey_le {α : Type} (l : List (String × α)) (k key : String) :
    countKey (delKey l k) key ≤ countKey l key := by
  induction l with
  | nil => simp [delKey]
  | cons p rest ih =>
    obtain ⟨k0, w⟩ := p
    by_cases hk : k0 = k
    · subst hk
      simp [delKey, countKey]
    · simp only [delKey, if_neg hk, countKey]
      omega

theorem countKey_delKey_self {α : Type} (l : List (String × α)) (key : String)
    (h : countKey l key ≤ 1) : countKey (delKey l key) key = 0 := by
  induction l with
  | nil => simp [delKey, countKey]
  | cons p rest ih =>
    obtain ⟨k0, w⟩ := p
    by_cases hk : k0 = key
    · subst hk
      simp [countKey] at h
      simp [delKey]
      omega
    · simp [countKey, hk] at h
      simp [delKey, countKey, hk]
      exact ih h

theorem mem_stopTrigger {ts : List Trigger} {i : Nat} {t : Trigger}
    (h : t ∈ stopTrigger ts i) :
    ∃ u ∈ ts, t = (if u.tid = i then { u with stopped := true } else u) := by
  simp only [stopTrigger, List.mem_map] at h
  obtain ⟨u, hu, hh⟩ := h
  exact ⟨u, hu, hh.symm⟩

/-- Shape of a successful `scheduleTask` call: success, incremented id
counter, the name re-bound to the fresh trigger id, and the trigger list
extended with the fresh trigger after stopping a previously bound one. -/
theorem scheduleTask_res (v : String → Bool) (st : SchedulerState) (x e : String) (f : Nat)
    (hv : v e = true) :
    (scheduleTask v st x e f).1 = true ∧
    (scheduleTask v st x e f).2.nextId = st.nextId + 1 ∧
    (scheduleTask v st x e f).2.table
      = setKey (match getKey st.table x with
          | some _ => delKey st.table x
          | none => st.table) x st.nextId ∧
    (scheduleTask v st x e f).2.triggers
      = (match getKey st.table x with
          | some i => stopTrigger st.triggers i
          | none => st.triggers) ++
        [{ tid := st.nextId, name := x, expr := e, task := f, stopped := false }] := by
  cases hg : getKey st.table x <;>
    simp [scheduleTask, hv, hg]

/-- A successful `scheduleTask` call preserves the scheduler invariant. -/
theorem scheduleTask_WF (v : String → Bool) (st : SchedulerState) (x e : String) (f : Nat)
    (hv : v e = true) (hwf : SchedWF st) : SchedWF (scheduleTask v st x e f).2 := by
  obtain ⟨hId, hTab, hAct⟩ := hwf
  obtain ⟨-, hNext, hTable, hTrig⟩ := scheduleTask_res v st x e f hv
  cases hg : getKey st.table x with
  | some i =>
    simp only [hg] at hTable hTrig
    refine ⟨?_, ?_, ?_⟩
    · intro t ht
      rw [hTrig] at ht
      rw [hNext]
      rcases List.mem_append.mp ht with ht | ht
      · obtain ⟨u, hu, hh⟩ := mem_stopTrigger ht
        have htid : t.tid = u.tid := by
          rw [hh]
          split <;> rfl
        have := hId u hu
        omega
      · simp only [List.mem_singleton] at ht
        rw [ht]
        exact Nat.lt_succ_self st.nextId
    · intro key
      rw [hTable]
      by_cases hk : x = key
      · subst hk
        rw [countKey_setKey_same, countKey_delKey_self st.table x (hTab x)]
        simp
      · rw [countKey_setKey_ne _ _ hk]
        exact le_trans (countKey_delKey_le _ _ _) (hTab key)
    · intro t ht hstop
      rw [hTrig] at ht
      rw [hTable]
      rcases List.mem_append.mp ht with ht | ht
      · obtain ⟨u, hu, hh⟩ := mem_stopTrigger ht
        by_cases hi : u.tid = i
        · rw [hh] at hstop
          simp [hi] at hstop
        · rw [hh] at hstop ⊢
          simp only [if_neg hi] at hstop ⊢
          have hu2 := hAct u hu hstop
          have hne : u.name ≠ x := by
            intro hx
            rw [hx, hg] at hu2
            injection hu2 with h2
            exact hi h2.symm
          rw [getKey_setKey_ne _ _ (Ne.symm hne), getKey_delKey_ne _ (Ne.symm hne)]
          exact hu2
      · simp only [List.mem_singleton] at ht
        rw [ht]
        exact getKey_setKey_self _ _ _
  | none =>
    simp only [hg] at hTable hTrig
    refine ⟨?_, ?_, ?_⟩
    · intro t ht
      rw [hTrig] at ht
      rw [hNext]
      rcases List.mem_append.mp ht with ht | ht
      · have := hId t ht
        omega
      · simp only [List.mem_singleton] at ht
        rw [ht]
        exact Nat.lt_succ_self st.nextId
    · intro key
      rw [hTable]
      by_cases hk : x = key
      · subst hk
        rw [countKey_setKey_same]
        have := hTab x
        omega
      · rw [countKey_setKey_ne _ _ hk]
        exact hTab key
    · intro t ht hstop
      rw [hTrig] at ht
      rw [hTable]
      rcases List.mem_append.mp ht with ht | ht
      · have hu2 := hAct t ht hstop
        have hne : t.name ≠ x := by
          intro hx
          rw [hx, hg] at hu2
          exact Option.noConfusion hu2
        rw [getKey_setKey_ne _ _ (Ne.symm hne)]
        exact hu2
      · simp only [List.mem_singleton] at ht
        rw [ht]
        exact getKey_setKey_self _ _ _

/-- Claim C4: calling `scheduleTask` twice with the same name and valid
cron expressions stops and removes the first trigger before installing the
second: afterwards the name is bound exactly once, to a running trigger
with the second expression and task, every non-stopped trigger under that
name is that one, and the first call's trigger is stopped (its task — f1 —
never fires again). -/
theorem C4_trigger_replacement (v : String → Bool) (st : SchedulerState)
    (x e1 e2 : String) (f1 f2 : Nat) (b1 b2 : Bool) (s1 s2 : SchedulerState)
    (hv1 : v e1 = true) (hv2 : v e2 = true) (hwf : SchedWF st)
    (hs1 : scheduleTask v st x e1 f1 = (b1, s1))
    (hs2 : scheduleTask v s1 x e2 f2 = (b2, s2)) :
    b1 = true ∧ b2 = true ∧
    countKey s2.table x = 1 ∧
    getKey s2.table x = some (st.nextId + 1) ∧
    (∃ t ∈ s2.triggers, t.tid = st.nextId + 1 ∧ t.name = x ∧ t.expr = e2 ∧
      t.task = f2 ∧ t.stopped = false) ∧
    (∀ t ∈ s2.triggers, t.stopped = false → t.name = x → t.tid = st.nextId + 1) ∧
    (∀ t ∈ s2.triggers, t.tid = st.nextId → t.task = f1 ∧ t.stopped = true) := by
  have e1res := scheduleTask_res v st x e1 f1 hv1
  rw [hs1] at e1res
  obtain ⟨hb1, hnext1, htable1, htrig1⟩ := e1res
  have hwf1 : SchedWF s1 := by
    have h := scheduleTask_WF v st x e1 f1 hv1 hwf
    rw [hs1] at h
    exact h
  have g1 : getKey s1.table x = some st.nextId := by
    rw [htable1]
    exact getKey_setKey_self _ _ _
  have e2res := scheduleTask_res v s1 x e2 f2 hv2
  rw [hs2] at e2res
  simp only [g1] at e2res
  obtain ⟨hb2, hnext2, htable2, htrig2⟩ := e2res
  have hwf2 : SchedWF s2 := by
    have h := scheduleTask_WF v s1 x e2 f2 hv2 hwf1
    rw [hs2] at h
    exact h
  have hkey2 : getKey s2.table x = some (st.nextId + 1) := by
    rw [htable2, getKey_setKey_self, hnext1]
  have hS1old : ∀ u ∈ s1.triggers, u.tid = st.nextId →
      u = { tid := st.nextId, name := x, expr := e1, task := f1, stopped := false } := by
    intro u hu htid
    rw [htrig1] at hu
    rcases List.mem_append.mp hu with hu | hu
    · exfalso
      cases hg0 : getKey st.table x with
      | some i0 =>
        rw [hg0] at hu
        obtain ⟨w, hw, hh⟩ := mem_stopTrigger hu
        have : u.tid = w.tid := by
          rw [hh]
          split <;> rfl
        have := hwf.1 w hw
        omega
      | none =>
        rw [hg0] at hu
        have := hwf.1 u hu
        omega
    · simpa using hu
  refine ⟨hb1, hb2, ?_, hkey2, ?_, ?_, ?_⟩
  · rw [htable2, countKey_setKey_same, countKey_delKey_self s1.table x (hwf1.2.1 x)]
    simp
  · refine ⟨{ tid := s1.nextId, name := x, expr := e2, task := f2, stopped := false },
      ?_, ?_, rfl, rfl, rfl, rfl⟩
    · rw [htrig2]
      exact List.mem_append_right _ (List.mem_singleton.mpr rfl)
    · rw [hnext1]
  · intro t ht hstop hname
    have h := hwf2.2.2 t ht hstop
    rw [hname, hkey2] at h
    injection h with h2
    exact h2.symm
  · intro t ht htid
    rw [htrig2] at ht
    rcases List.mem_append.mp ht with ht | ht
    · obtain ⟨u, hu, hh⟩ := mem_stopTrigger ht
      by_cases hi : u.tid = st.nextId
      · have hu1 := hS1old u hu hi
        rw [hh, if_pos hi, hu1]
        exact ⟨rfl, rfl⟩
      · exfalso
        rw [hh, if_neg hi] at htid
        exact hi htid
    · exfalso
      simp only [List.mem_singleton] at ht
      rw [ht] at htid
      simp only at htid
      rw [hnext1] at htid
      omega

theorem C4_trigger_replacement_witness :
    countKey schedB.table ("x") = 1 ∧
    getKey schedB.table ("x") = some (emptyScheduler.nextId + 1) ∧
    trigStopped.task = 1 ∧ trigStopped.stopped = true := by
  have h := C4_trigger_replacement cronOK emptyScheduler ("x") ("0 * * * *")
    ("1 * * * *") 1 2 true true schedA schedB rfl rfl
    ⟨by simp [emptyScheduler], fun key => by simp [emptyScheduler, countKey],
     by simp [emptyScheduler]⟩ rfl rfl
  refine ⟨h.2.2.1, h.2.2.2.1, ?_, ?_⟩
  · exact (h.2.2.2.2.2.2 trigStopped (by decide) rfl).1
  · exact (h.2.2.2.2.2.2 trigStopped (by decide) rfl).2
